import Mathlib

/-!
Verification of the artifact cache / remote synchronization layer of
`pyobo` (`src/pyobo/aws.py`): `download_artifacts`, `upload_artifacts`,
`upload_artifacts_for_prefix`, `upload_file`, `list_artifacts`.

External collaborators (the boto3 S3 client, `iter_cached_obo`,
`get_version`, `get_cache_path`, the `RAW_DIRECTORY` configuration, the
`humanize`/`tabulate` formatters) are modelled as explicit parameters:
the remote listing is a snapshot value, the local filesystem is a list of
existing file paths, and network transfers are recorded as explicit call
lists so that the theorems can speak about which transfers happen.
-/

namespace PyObo

/-- One entry of the S3 `list_objects` response: a key and a size. -/
structure S3Object where
  key : String
  size : Nat
  deriving DecidableEq, Repr

/-- The `list_objects(Bucket=...)` response.  boto3 omits the `Contents`
field entirely when the bucket holds no objects, so accessing
`all_objects["Contents"]` raises `KeyError`; `contents = none` models the
absent field. -/
structure ListResponse where
  contents : Option (List S3Object)
  deriving DecidableEq, Repr

/-- Python exceptions surfaced by the code under study. -/
inductive PyError where
  | keyError (key : String)
  | fileNotFoundError
  deriving DecidableEq, Repr

/-- `os.path.join(a, b)` for POSIX paths, as CPython implements it:
if `b` starts with the separator it replaces everything before it;
if `a` is empty or already ends with the separator, `b` is appended
directly; otherwise a separator is inserted. -/
def osPathJoin (a b : String) : String :=
  if b.data.head? = some '/' then b
  else if a = "" ∨ a.data.getLast? = some '/' then a ++ b
  else a ++ "/" ++ b

/-- `os.path.join(a, b, c)` folds pairwise. -/
def osPathJoin3 (a b c : String) : String :=
  osPathJoin (osPathJoin a b) c

/-- Python's `s.endswith(suffix)`: the suffix's characters end the
string. -/
def pyEndsWith (s suffix : String) : Bool :=
  suffix.data.isSuffixOf s.data

/-- Splitting a character list at every occurrence of `sep`, Python's
`str.split(sep)` for a one-character separator: always returns at least
one (possibly empty) piece, and adjacent separators yield empty
pieces. -/
def splitOnChar (sep : Char) : List Char → List (List Char)
  | [] => [[]]
  | c :: cs =>
    match splitOnChar sep cs with
    | [] => [[]]
    | h :: t => if c = sep then [] :: h :: t else (c :: h) :: t

/-- The condition of the filter branch in `download_artifacts`
(line 47 of `aws.py`): `suffix and not key.endswith(suffix)`.
A `None` or empty `suffix` is falsy in Python. -/
def suffixFilterCond (suffix : Option String) (key : String) : Bool :=
  match suffix with
  | none => false
  | some s => !s.isEmpty && !(pyEndsWith key s)

/-- The local filesystem and network activity observable from one
`download_artifacts` run: the set of local files present (as a list of
paths) and the `download_file` network calls issued, each recorded as
`(key, destination path)` in order. -/
structure DownloadState where
  files : List String
  downloads : List (String × String)
  deriving DecidableEq, Repr

/-- The body of the `for entry in all_objects["Contents"]` loop of
`download_artifacts` (lines 46-54 of `aws.py`).  The suffix-filter
branch's body is `pass` in the source, so its condition is evaluated and
then discarded.  `os.makedirs(..., exist_ok=True)` creates directories
only, never files, so it does not affect `files`.  If the destination
path already exists the entry is skipped (`continue`); otherwise
`download_file` runs and the file then exists locally. -/
def downloadEntry (rawDir : String) (suffix : Option String)
    (st : DownloadState) (entry : S3Object) : DownloadState :=
  let key := entry.key
  let _filtered := suffixFilterCond suffix key
  let path := osPathJoin rawDir key
  if st.files.contains path then st
  else { files := st.files ++ [path], downloads := st.downloads ++ [(key, path)] }

/-- `download_artifacts(bucket, suffix)` (lines 35-54 of `aws.py`),
with the module configuration `RAW_DIRECTORY` passed as `rawDir` and the
pre-existing local files as `init`.  Accessing `all_objects["Contents"]`
on a response without that field raises `KeyError`. -/
def download_artifacts (rawDir : String) (resp : ListResponse)
    (suffix : Option String) (init : List String) :
    Except PyError DownloadState :=
  match resp.contents with
  | none => .error (.keyError "Contents")
  | some objs => .ok (objs.foldl (downloadEntry rawDir suffix) ⟨init, []⟩)

/-- An S3 client handle.  `boto3.client("s3")` constructs a fresh default
client (`freshDefault`); callers may instead inject their own handle
(`external`). -/
inductive Client where
  | external (id : Nat)
  | freshDefault
  deriving DecidableEq, Repr

/-- One `s3_client.upload_file(path, bucket, key)` network call, recording
which client handle performed it. -/
structure UploadCall where
  path : String
  bucket : String
  key : String
  client : Client
  deriving DecidableEq, Repr

/-- `upload_file(path=..., bucket=..., key=..., s3_client=...)`
(lines 144-153 of `aws.py`): when no client is supplied, a fresh default
client is constructed and used. -/
def upload_file (path bucket key : String) (s3_client : Option Client) :
    UploadCall :=
  { path := path, bucket := bucket, key := key,
    client := match s3_client with | some c => c | none => Client.freshDefault }

/-- `Modelled from the spec:` the closed set of artifact kinds handled by
the sync engine (§3: "one of \x7bnames, synonyms, xrefs, relations,
properties, alts\x7d. Fixed, closed set.").  The enum `CacheArtifact`
itself lives in `pyobo.utils.path`, outside the shown sources; only its
six members used by `aws.py` are modelled. -/
inductive CacheArtifact where
  | names
  | synonyms
  | xrefs
  | relations
  | properties
  | alts
  deriving DecidableEq, Repr, Fintype

/-- The order in which `upload_artifacts_for_prefix` processes the six
artifact kinds (lines 89-141 of `aws.py`). -/
def artifactOrder : List CacheArtifact :=
  [.names, .synonyms, .xrefs, .relations, .properties, .alts]

/-- Position of a kind in `artifactOrder`. -/
def orderIdx : CacheArtifact → Nat
  | .names => 0
  | .synonyms => 1
  | .xrefs => 2
  | .relations => 3
  | .properties => 4
  | .alts => 5

/-- `PurePath.name`: the final path component. -/
def pyName (path : String) : String :=
  String.mk ((splitOnChar '/' path.data).getLastD [])

/-- The remote key built for each kind: `os.path.join(prefix, "cache",
name)` for names, synonyms, xrefs, relations and alts (lines 94, 103,
112, 121, 139), but `os.path.join(prefix, name)` for properties
(line 130). -/
def artifactKey (pfx name : String) : CacheArtifact → String
  | .properties => osPathJoin pfx name
  | _ => osPathJoin3 pfx "cache" name

/-- The client handle each kind's `upload_file` call receives: the
resolved `s3_client` for five kinds, but the `alts` call (line 141)
omits the `s3_client` argument. -/
def artifactClient (s3c : Client) : CacheArtifact → Option Client
  | .alts => none
  | _ => some s3c

/-- Observable outcome of one `upload_artifacts_for_prefix` run:
which kinds had their derivation step executed (in order), the
`upload_file` calls issued (in order, tagged with the kind whose block
issued them), and whether a `FileNotFoundError` was raised. -/
structure PrefixUploadResult where
  derived : List CacheArtifact
  calls : List (CacheArtifact × UploadCall)
  raised : Bool
  deriving DecidableEq, Repr

/-- The six per-kind blocks of `upload_artifacts_for_prefix`, run in
sequence over `ks`.  Each block derives the artifact, then checks the
resolved cache path: if it does not exist a `FileNotFoundError` is
raised, ending the run (kinds after it are neither derived nor
uploaded); otherwise the file is uploaded under the kind's remote key
with the kind's client handle.  `existsAfter k` is the filesystem fact
"the resolved path for `k` exists after `k`'s derivation step". -/
def uploadKinds (pfx bucket : String) (s3c : Client)
    (cachePath : CacheArtifact → String)
    (existsAfter : CacheArtifact → Bool) :
    List CacheArtifact → PrefixUploadResult
  | [] => ⟨[], [], false⟩
  | k :: ks =>
    if existsAfter k then
      let call := upload_file (cachePath k) bucket
        (artifactKey pfx (pyName (cachePath k)) k) (artifactClient s3c k)
      let r := uploadKinds pfx bucket s3c cachePath existsAfter ks
      ⟨k :: r.derived, (k, call) :: r.calls, r.raised⟩
    else ⟨[k], [], true⟩

/-- `upload_artifacts_for_prefix(prefix=..., bucket=..., s3_client=...,
version=...)` (lines 79-141 of `aws.py`; Python's `prefix` parameter is
written `pfx`, `prefix` being a Lean keyword).  A missing client is
replaced by a fresh default one, a missing version is resolved via
`get_version`; the external collaborators `get_version` and
`get_cache_path` (both defined outside the shown sources) are passed as
parameters, `get_cache_path pfx k v` being the resolved local path for
`(pfx, k, v)`. -/
def resolveClient (s3_client : Option Client) : Client :=
  match s3_client with
  | some c => c
  | none => Client.freshDefault

def resolveVersion (version : Option String) (get_version : String → String)
    (pfx : String) : String :=
  match version with
  | some v => v
  | none => get_version pfx

def upload_artifacts_for_prefix (pfx bucket : String)
    (s3_client : Option Client) (version : Option String)
    (get_version : String → String)
    (get_cache_path : String → CacheArtifact → String → String)
    (existsAfter : CacheArtifact → Bool) : PrefixUploadResult :=
  uploadKinds pfx bucket (resolveClient s3_client)
    (fun k => get_cache_path pfx k (resolveVersion version get_version pfx))
    existsAfter artifactOrder

/-- `entry["Key"].split("/")[0]`: the first path segment of a remote
key (line 67 of `aws.py`).  Python's `str.split` on a non-empty
separator always yields a non-empty list, so index 0 never fails. -/
def firstSegment (key : String) : String :=
  String.mk ((splitOnChar '/' key.data).headD [])

/-- The skip test `whitelist and prefix not in whitelist` (line 72 of
`aws.py`): a `None` or empty whitelist is falsy and never skips. -/
def whitelistSkip (whitelist : Option (List String)) (pfx : String) : Bool :=
  match whitelist with
  | none => false
  | some l => !l.isEmpty && !l.contains pfx

/-- The skip test `blacklist and prefix in blacklist` (line 74 of
`aws.py`): a `None` or empty blacklist is falsy and never skips. -/
def blacklistSkip (blacklist : Option (List String)) (pfx : String) : Bool :=
  match blacklist with
  | none => false
  | some l => !l.isEmpty && l.contains pfx

/-- Python's `<` on strings: strict lexicographic comparison of code
points. -/
def charListLt : List Char → List Char → Bool
  | [], [] => false
  | [], _ :: _ => true
  | _ :: _, [] => false
  | a :: as, b :: bs =>
    if a.toNat < b.toNat then true
    else if b.toNat < a.toNat then false
    else charListLt as bs

/-- Python's comparison on `(str, str)` tuples, as used by
`sorted(iter_cached_obo())`: lexicographic, strings compared by code
point. -/
def pairLe (a b : String × String) : Bool :=
  charListLt a.1.data b.1.data ||
    (a.1 == b.1 && !charListLt b.2.data a.2.data)

/-- Insert into a sorted list (auxiliary for `sortPairs`). -/
def insertPair (x : String × String) :
    List (String × String) → List (String × String)
  | [] => [x]
  | y :: ys => if pairLe x y then x :: y :: ys else y :: insertPair x ys

/-- `sorted(...)` over `(prefix, directory)` pairs, by insertion sort;
with the total lexicographic order this produces the same list as
Python's `sorted`. -/
def sortPairs : List (String × String) → List (String × String)
  | [] => []
  | x :: xs => insertPair x (sortPairs xs)

/-- Observable outcome of the source loop in `upload_artifacts`:
the prefixes for which `upload_artifacts_for_prefix` was invoked, in
order, and the prefix whose invocation raised `FileNotFoundError`, if
any. -/
structure UploadAllResult where
  invoked : List String
  failed : Option String
  deriving DecidableEq, Repr

/-- The `for prefix, _ in sorted(iter_cached_obo())` loop of
`upload_artifacts` (lines 69-76 of `aws.py`).  A source is skipped when
its prefix is already present remotely, when a truthy whitelist lacks
it, or when a truthy blacklist holds it; otherwise
`upload_artifacts_for_prefix` is invoked for it.  The loop body has no
exception handler, so a raise from the invocation (`uploadOneOk pfx =
false`) propagates and the remaining sources are not reached. -/
def uploadLoop (uploadedPrefixes : List String)
    (whitelist blacklist : Option (List String))
    (uploadOneOk : String → Bool) :
    List (String × String) → UploadAllResult
  | [] => ⟨[], none⟩
  | (pfx, _) :: rest =>
    if uploadedPrefixes.contains pfx then
      uploadLoop uploadedPrefixes whitelist blacklist uploadOneOk rest
    else if whitelistSkip whitelist pfx then
      uploadLoop uploadedPrefixes whitelist blacklist uploadOneOk rest
    else if blacklistSkip blacklist pfx then
      uploadLoop uploadedPrefixes whitelist blacklist uploadOneOk rest
    else if uploadOneOk pfx then
      let r := uploadLoop uploadedPrefixes whitelist blacklist uploadOneOk rest
      ⟨pfx :: r.invoked, r.failed⟩
    else ⟨[pfx], some pfx⟩

/-- `upload_artifacts(bucket, whitelist, blacklist, s3_client)`
(lines 57-76 of `aws.py`).  The local sources enumerated by
`iter_cached_obo` (defined outside the shown sources) are passed as
`localSources`, and the outcome of each per-prefix upload as
`uploadOneOk`.  Accessing `all_objects["Contents"]` on a response
without that field raises `KeyError`; `uploaded_prefixes` is the set of
first path segments of the listed keys. -/
def upload_artifacts (resp : ListResponse)
    (whitelist blacklist : Option (List String))
    (localSources : List (String × String)) (uploadOneOk : String → Bool) :
    Except PyError UploadAllResult :=
  match resp.contents with
  | none => .error (.keyError "Contents")
  | some objs =>
    let uploadedPrefixes := objs.map fun e => firstSegment e.key
    .ok (uploadLoop uploadedPrefixes whitelist blacklist uploadOneOk
      (sortPairs localSources))

/-- `list_artifacts(bucket)` (lines 156-163 of `aws.py`): lists the
bucket and renders `(key, humanized size)` rows as a table.  The
external formatters `humanize.naturalsize` and `tabulate` are passed as
parameters; accessing `all_objects["Contents"]` on a response without
that field raises `KeyError`. -/
def list_artifacts (naturalsize : Nat → String)
    (tabulateRows : List (String × String) → List String → String)
    (resp : ListResponse) : Except PyError String :=
  match resp.contents with
  | none => .error (.keyError "Contents")
  | some objs =>
    let rows := objs.map fun e => (e.key, naturalsize e.size)
    .ok (tabulateRows rows ["File", "Size"])

/-- A concrete stand-in for the per-kind cache file name endings, used to
instantiate `get_cache_path` on concrete runs. -/
def kindFileExt : CacheArtifact → String
  | .names => ".names.tsv"
  | .synonyms => ".synonyms.tsv"
  | .xrefs => ".xrefs.tsv"
  | .relations => ".relations.tsv"
  | .properties => ".properties.tsv"
  | .alts => ".alts.tsv"

/-! ## Helper lemmas about the upload loop -/

/-- A prefix for which `upload_artifacts_for_prefix` is invoked passed
all three skip tests of the loop. -/
theorem uploadLoop_invoked_passes (up : List String)
    (wl bl : Option (List String)) (f : String → Bool) (p : String) :
    ∀ l, p ∈ (uploadLoop up wl bl f l).invoked →
      p ∉ up ∧ whitelistSkip wl p = false ∧ blacklistSkip bl p = false := by
  intro l
  induction l with
  | nil => simp [uploadLoop]
  | cons x rest ih =>
    obtain ⟨pfx, d⟩ := x
    by_cases h1 : pfx ∈ up
    · intro hm
      exact ih (by simpa [uploadLoop, h1] using hm)
    · by_cases h2 : whitelistSkip wl pfx
      · intro hm
        exact ih (by simpa [uploadLoop, h1, h2] using hm)
      · by_cases h3 : blacklistSkip bl pfx
        · intro hm
          exact ih (by simpa [uploadLoop, h1, h2, h3] using hm)
        · by_cases h4 : f pfx
          · intro hm
            have hm' : p = pfx ∨ p ∈ (uploadLoop up wl bl f rest).invoked := by
              simpa [uploadLoop, h1, h2, h3, h4] using hm
            rcases hm' with rfl | ht
            · exact ⟨h1, by simpa using h2, by simpa using h3⟩
            · exact ih ht
          · intro hm
            have hm' : p = pfx := by
              simpa [uploadLoop, h1, h2, h3, h4] using hm
            subst hm'
            exact ⟨h1, by simpa using h2, by simpa using h3⟩

/-- Once the loop raises at some source, any sources after it contribute
nothing: the loop result over `xs ++ ys` equals the result over `xs`. -/
theorem uploadLoop_halts (up : List String) (wl bl : Option (List String))
    (f : String → Bool) (p : String) :
    ∀ xs ys, (uploadLoop up wl bl f xs).failed = some p →
      uploadLoop up wl bl f (xs ++ ys) = uploadLoop up wl bl f xs := by
  intro xs
  induction xs with
  | nil => simp [uploadLoop]
  | cons x rest ih =>
    obtain ⟨pfx, d⟩ := x
    intro ys
    by_cases h1 : pfx ∈ up
    · intro hfail
      have := ih ys (by simpa [uploadLoop, h1] using hfail)
      simpa [uploadLoop, h1] using this
    · by_cases h2 : whitelistSkip wl pfx
      · intro hfail
        have := ih ys (by simpa [uploadLoop, h1, h2] using hfail)
        simpa [uploadLoop, h1, h2] using this
      · by_cases h3 : blacklistSkip bl pfx
        · intro hfail
          have := ih ys (by simpa [uploadLoop, h1, h2, h3] using hfail)
          simpa [uploadLoop, h1, h2, h3] using this
        · by_cases h4 : f pfx
          · intro hfail
            have hf' : (uploadLoop up wl bl f rest).failed = some p := by
              simpa [uploadLoop, h1, h2, h3, h4] using hfail
            simp [uploadLoop, h1, h2, h3, h4, ih ys hf']
          · intro hfail
            simp [uploadLoop, h1, h2, h3, h4]

/-- An empty whitelist is falsy in Python, so it never skips. -/
theorem whitelistSkip_empty (p : String) :
    whitelistSkip (some []) p = whitelistSkip none p := rfl

/-- An empty blacklist is falsy in Python, so it never skips. -/
theorem blacklistSkip_empty (p : String) :
    blacklistSkip (some []) p = blacklistSkip none p := rfl

theorem uploadLoop_wl_empty (up : List String) (bl : Option (List String))
    (f : String → Bool) :
    ∀ l, uploadLoop up (some []) bl f l = uploadLoop up none bl f l := by
  intro l
  induction l with
  | nil => rfl
  | cons x rest ih =>
    obtain ⟨pfx, d⟩ := x
    simp only [uploadLoop, whitelistSkip_empty, ih]

theorem uploadLoop_bl_empty (up : List String) (wl : Option (List String))
    (f : String → Bool) :
    ∀ l, uploadLoop up wl (some []) f l = uploadLoop up wl none f l := by
  intro l
  induction l with
  | nil => rfl
  | cons x rest ih =>
    obtain ⟨pfx, d⟩ := x
    simp only [uploadLoop, blacklistSkip_empty, ih]

/-! ## Helper lemmas about the download loop -/

/-- Local files are never removed by the download loop. -/
theorem downloadFold_files_mono (rawDir : String) (suffix : Option String) :
    ∀ (objs : List S3Object) (st : DownloadState) (p : String),
      p ∈ st.files →
        p ∈ (objs.foldl (downloadEntry rawDir suffix) st).files := by
  intro objs
  induction objs with
  | nil => intro st p hp; simpa using hp
  | cons e rest ih =>
    intro st p hp
    simp only [List.foldl_cons]
    apply ih
    by_cases h : osPathJoin rawDir e.key ∈ st.files
    · simpa [downloadEntry, h] using hp
    · simp [downloadEntry, h]
      exact .inl hp

/-- After the loop, every listed object's destination path exists
locally. -/
theorem downloadFold_covers (rawDir : String) (suffix : Option String) :
    ∀ (objs : List S3Object) (st : DownloadState) (e : S3Object),
      e ∈ objs →
        osPathJoin rawDir e.key ∈
          (objs.foldl (downloadEntry rawDir suffix) st).files := by
  intro objs
  induction objs with
  | nil => simp
  | cons x rest ih =>
    intro st e he
    rcases List.mem_cons.mp he with rfl | ht
    · simp only [List.foldl_cons]
      apply downloadFold_files_mono
      by_cases h : osPathJoin rawDir e.key ∈ st.files
      · simp [downloadEntry, h]
      · simp [downloadEntry, h]
    · simp only [List.foldl_cons]
      exact ih _ e ht

/-- Every download call added by the loop targets a path that was absent
when the loop started. -/
theorem downloadFold_downloads_new (rawDir : String) (suffix : Option String) :
    ∀ (objs : List S3Object) (st : DownloadState) (pr : String × String),
      pr ∈ (objs.foldl (downloadEntry rawDir suffix) st).downloads →
        pr ∈ st.downloads ∨ pr.2 ∉ st.files := by
  intro objs
  induction objs with
  | nil => intro st pr hpr; exact .inl (by simpa using hpr)
  | cons e rest ih =>
    intro st pr hpr
    simp only [List.foldl_cons] at hpr
    by_cases h : osPathJoin rawDir e.key ∈ st.files
    · rcases ih _ pr (by simpa [downloadEntry, h] using hpr) with hin | hout
      · exact .inl (by simpa [downloadEntry, h] using hin)
      · exact .inr (by simpa [downloadEntry, h] using hout)
    · rcases ih _ pr hpr with hin | hout
      · have : pr ∈ st.downloads ∨ pr = (e.key, osPathJoin rawDir e.key) := by
          simpa [downloadEntry, h] using hin
        rcases this with h1 | h1
        · exact .inl h1
        · exact .inr (by rw [h1]; exact h)
      · right
        intro hmem
        apply hout
        have : (downloadEntry rawDir suffix st e).files =
            st.files ++ [osPathJoin rawDir e.key] := by
          simp [downloadEntry, h]
        rw [this]
        exact List.mem_append_left _ hmem

/-- Every download call records `(key, os.path.join(rawDir, key))`. -/
theorem downloadFold_downloads_shape (rawDir : String)
    (suffix : Option String) :
    ∀ (objs : List S3Object) (st : DownloadState) (pr : String × String),
      pr ∈ (objs.foldl (downloadEntry rawDir suffix) st).downloads →
        pr ∈ st.downloads ∨ pr.2 = osPathJoin rawDir pr.1 := by
  intro objs
  induction objs with
  | nil => intro st pr hpr; exact .inl (by simpa using hpr)
  | cons e rest ih =>
    intro st pr hpr
    simp only [List.foldl_cons] at hpr
    by_cases h : osPathJoin rawDir e.key ∈ st.files
    · rcases ih _ pr hpr with hin | hout
      · exact .inl (by simpa [downloadEntry, h] using hin)
      · exact .inr hout
    · rcases ih _ pr hpr with hin | hout
      · have : pr ∈ st.downloads ∨ pr = (e.key, osPathJoin rawDir e.key) := by
          simpa [downloadEntry, h] using hin
        rcases this with h1 | h1
        · exact .inl h1
        · right
          rw [h1]
      · exact .inr hout

/-- When every listed object's destination path already exists, the loop
is the identity: nothing is downloaded and no file changes. -/
theorem downloadFold_fixpoint (rawDir : String) (suffix : Option String) :
    ∀ (objs : List S3Object) (st : DownloadState),
      (∀ e ∈ objs, osPathJoin rawDir e.key ∈ st.files) →
        objs.foldl (downloadEntry rawDir suffix) st = st := by
  intro objs
  induction objs with
  | nil => intro st _; rfl
  | cons e rest ih =>
    intro st hall
    have he : osPathJoin rawDir e.key ∈ st.files := hall e (by simp)
    have hstep : downloadEntry rawDir suffix st e = st := by
      simp [downloadEntry, he]
    simp only [List.foldl_cons, hstep]
    exact ih st fun x hx => hall x (by simp [hx])

/-- The loop preserves freedom from duplicate local paths. -/
theorem downloadFold_nodup (rawDir : String) (suffix : Option String) :
    ∀ (objs : List S3Object) (st : DownloadState),
      st.files.Nodup →
        (objs.foldl (downloadEntry rawDir suffix) st).files.Nodup := by
  intro objs
  induction objs with
  | nil => intro st h; simpa using h
  | cons e rest ih =>
    intro st hnd
    simp only [List.foldl_cons]
    apply ih
    by_cases h : osPathJoin rawDir e.key ∈ st.files
    · simpa [downloadEntry, h] using hnd
    · have : (downloadEntry rawDir suffix st e).files =
          st.files ++ [osPathJoin rawDir e.key] := by
        simp [downloadEntry, h]
      rw [this]
      simp [List.nodup_append, hnd, h]

/-! ## Helper lemmas about the per-kind upload blocks and path joins -/

/-- Every `upload_file` call issued by the per-kind blocks has the shape
the block for its kind constructs: local cache path, bucket, the kind's
remote key, the kind's client handle. -/
theorem uploadKinds_calls_shape (pfx bucket : String) (s3c : Client)
    (cachePath : CacheArtifact → String) (ea : CacheArtifact → Bool) :
    ∀ (ks : List CacheArtifact) (k : CacheArtifact) (c : UploadCall),
      (k, c) ∈ (uploadKinds pfx bucket s3c cachePath ea ks).calls →
        c = upload_file (cachePath k) bucket
          (artifactKey pfx (pyName (cachePath k)) k) (artifactClient s3c k) := by
  intro ks
  induction ks with
  | nil => simp [uploadKinds]
  | cons k0 rest ih =>
    intro k c hmem
    by_cases h : ea k0 = true
    · have hm' : (k = k0 ∧ c = upload_file (cachePath k0) bucket
          (artifactKey pfx (pyName (cachePath k0)) k0) (artifactClient s3c k0)) ∨
          (k, c) ∈ (uploadKinds pfx bucket s3c cachePath ea rest).calls := by
        simpa [uploadKinds, h] using hmem
      rcases hm' with ⟨rfl, rfl⟩ | ht
      · rfl
      · exact ih k c ht
    · simp [uploadKinds, h] at hmem

/-- `os.path.join` inserts exactly one separator when the left part is
non-empty and does not end in one and the right part does not start with
one. -/
theorem osPathJoin_eq (a b : String) (ha : a ≠ "")
    (ha2 : a.data.getLast? ≠ some '/') (hb : b.data.head? ≠ some '/') :
    osPathJoin a b = a ++ "/" ++ b := by
  unfold osPathJoin
  rw [if_neg hb, if_neg (not_or.mpr ⟨ha, ha2⟩)]

/-- The three-way join used for the five `cache/`-namespaced kinds. -/
theorem osPathJoin3_cache (a b : String) (ha : a ≠ "")
    (ha2 : a.data.getLast? ≠ some '/') (hb : b.data.head? ≠ some '/') :
    osPathJoin3 a "cache" b = a ++ "/cache/" ++ b := by
  unfold osPathJoin3
  rw [osPathJoin_eq a "cache" ha ha2 (by decide)]
  rw [osPathJoin_eq (a ++ "/" ++ "cache") b ?ne ?last hb]
  case ne =>
    intro h
    have := congrArg String.data h
    simp [String.data_append] at this
  case last =>
    have hd : (a ++ "/" ++ "cache").data = (a ++ "/").data ++ "cache".data :=
      String.data_append _ _
    have h2 : ((a ++ "/").data ++ "cache".data).getLast? =
        ("cache".data : List Char).getLast? :=
      List.getLast?_append_of_ne_nil ((a ++ "/").data) (by decide)
    rw [hd, h2]
    decide
  apply String.ext
  simp [String.data_append]

/-! ## Claims -/

/-- C1: the claim says an object whose key does not end with the given
suffix is skipped — neither downloaded nor given a local file.  The code
evaluates the filter condition but its branch body is `pass`, so the
mismatching object is downloaded anyway and a local file is created:
with suffix `names.tsv` and sole remote object `go/go.xrefs.tsv`
(a mismatch, first conjunct), starting from an empty local cache, the
run issues a download call for it and creates `raw/go/go.xrefs.tsv`. -/
theorem C1_suffix_mismatch_downloaded_anyway :
    suffixFilterCond (some "names.tsv") "go/go.xrefs.tsv" = true ∧
      download_artifacts "raw" ⟨some [⟨"go/go.xrefs.tsv", 5⟩]⟩
          (some "names.tsv") [] =
        .ok ⟨["raw/go/go.xrefs.tsv"],
          [("go/go.xrefs.tsv", "raw/go/go.xrefs.tsv")]⟩ :=
  ⟨by decide, rfl⟩

/-- C9: when the listing response carries no `Contents` entry (empty
bucket), `download_artifacts`, `upload_artifacts` and `list_artifacts`
each fail with a `KeyError` lookup error instead of treating the remote
store as empty and proceeding. -/
theorem C9_empty_bucket_raises_key_error (rawDir : String)
    (suffix : Option String) (init : List String)
    (wl bl : Option (List String)) (srcs : List (String × String))
    (f : String → Bool) (naturalsize : Nat → String)
    (tabulateRows : List (String × String) → List String → String) :
    download_artifacts rawDir ⟨none⟩ suffix init =
        .error (.keyError "Contents") ∧
      upload_artifacts ⟨none⟩ wl bl srcs f = .error (.keyError "Contents") ∧
      list_artifacts naturalsize tabulateRows ⟨none⟩ =
        .error (.keyError "Contents") :=
  ⟨rfl, rfl, rfl⟩

/-- C10: in `upload_artifacts`, an empty whitelist set or an empty
blacklist set behaves exactly like passing `None`: the empty filter is
falsy in Python, skips nothing, and the whole run is unchanged. -/
theorem C10_empty_filter_is_no_filter (resp : ListResponse)
    (wl bl : Option (List String)) (srcs : List (String × String))
    (f : String → Bool) :
    upload_artifacts resp (some []) bl srcs f =
        upload_artifacts resp none bl srcs f ∧
      upload_artifacts resp wl (some []) srcs f =
        upload_artifacts resp wl none srcs f := by
  obtain ⟨contents⟩ := resp
  cases contents with
  | none => exact ⟨rfl, rfl⟩
  | some objs =>
    constructor
    · simp [upload_artifacts, uploadLoop_wl_empty]
    · simp [upload_artifacts, uploadLoop_bl_empty]

/-- C3 counterexample: the claim says that when
`upload_artifacts_for_prefix` raises `FileNotFoundError` for one source,
the remaining sibling sources are still processed.  On the concrete run
below, the sorted source list is `[("aaa","d1"), ("bbb","d2")]`, the
per-source upload raises for every source, and the run ends at `"aaa"`
with `"bbb"` — a sibling still in the sorted list (second conjunct) —
never invoked (the invocation list is exactly `["aaa"]`). -/
theorem C3_counterexample :
    upload_artifacts ⟨some [⟨"zzz/x", 1⟩]⟩ none none
          [("bbb", "d2"), ("aaa", "d1")] (fun _ => false) =
        .ok ⟨["aaa"], some "aaa"⟩ ∧
      ("bbb", "d2") ∈ sortPairs [("bbb", "d2"), ("aaa", "d1")] ∧
      "bbb" ∉ (["aaa"] : List String) :=
  ⟨rfl, by decide, by decide⟩

/-- C3 (amended): when `upload_artifacts_for_prefix` raises
`FileNotFoundError` for one source during `upload_artifacts`, the
exception propagates out of the source loop: the sorted sources after
the failing one are not processed, so the loop result over
`xs ++ ys` equals the result over `xs` alone whenever the failure
happens inside `xs`. -/
theorem C3_failure_halts_siblings (up : List String)
    (wl bl : Option (List String)) (f : String → Bool) (p : String)
    (xs ys : List (String × String))
    (h : (uploadLoop up wl bl f xs).failed = some p) :
    uploadLoop up wl bl f (xs ++ ys) = uploadLoop up wl bl f xs :=
  uploadLoop_halts up wl bl f p xs ys h

/-- Witness for C3 (amended): a concrete failing run over
`[("aaa","d1")]` is unchanged by appending the sibling `("bbb","d2")`. -/
theorem C3_failure_halts_siblings_witness :
    uploadLoop [] none none (fun _ => false)
        ([("aaa", "d1")] ++ [("bbb", "d2")]) =
      uploadLoop [] none none (fun _ => false) [("aaa", "d1")] :=
  C3_failure_halts_siblings [] none none (fun _ => false) "aaa"
    [("aaa", "d1")] [("bbb", "d2")] rfl

/-- C2: if the remote listing at the start of `upload_artifacts`
contains any key whose first path segment is `S`, then
`upload_artifacts_for_prefix` is never invoked for `S` during that
run. -/
theorem C2_present_source_never_invoked (resp : ListResponse)
    (objs : List S3Object) (S : String) (wl bl : Option (List String))
    (srcs : List (String × String)) (f : String → Bool) (e : S3Object)
    (r : UploadAllResult) (hc : resp.contents = some objs) (he : e ∈ objs)
    (hS : firstSegment e.key = S)
    (hr : upload_artifacts resp wl bl srcs f = .ok r) :
    S ∉ r.invoked := by
  intro hmem
  obtain ⟨contents⟩ := resp
  obtain rfl : contents = some objs := hc
  have hr' : uploadLoop (objs.map fun o => firstSegment o.key) wl bl f
      (sortPairs srcs) = r := by
    simpa [upload_artifacts] using hr
  rw [← hr'] at hmem
  have h3 := uploadLoop_invoked_passes
    (objs.map fun o => firstSegment o.key) wl bl f S (sortPairs srcs) hmem
  exact h3.1 (List.mem_map.mpr ⟨e, he, hS⟩)

/-- Witness for C2: with `go/cache/go.names.tsv` already remote, a run
over local sources `go` and `hp` invokes the per-source upload only for
`hp`. -/
theorem C2_present_source_never_invoked_witness :
    "go" ∉ (UploadAllResult.mk ["hp"] none).invoked :=
  C2_present_source_never_invoked ⟨some [⟨"go/cache/go.names.tsv", 1⟩]⟩
    [⟨"go/cache/go.names.tsv", 1⟩] "go" none none
    [("go", "d"), ("hp", "d")] (fun _ => true) ⟨"go/cache/go.names.tsv", 1⟩
    (UploadAllResult.mk ["hp"] none) rfl (by decide) (by decide) rfl

/-- C7: every source actually handed to the per-source upload passed the
whitelist test (membership, when a non-empty whitelist is given), the
blacklist test (non-membership, when a non-empty blacklist is given),
and the already-present-remotely test (no remote key has it as first
segment) — so both filters act on top of the idempotence skip. -/
theorem C7_allow_deny_filters (resp : ListResponse)
    (wl bl : Option (List String)) (srcs : List (String × String))
    (f : String → Bool) (r : UploadAllResult) (p : String)
    (hr : upload_artifacts resp wl bl srcs f = .ok r) (hp : p ∈ r.invoked) :
    (∀ l, wl = some l → l ≠ [] → p ∈ l) ∧
      (∀ l, bl = some l → l ≠ [] → p ∉ l) ∧
      ∀ objs, resp.contents = some objs →
        ∀ e ∈ objs, firstSegment e.key ≠ p := by
  obtain ⟨contents⟩ := resp
  cases contents with
  | none => simp [upload_artifacts] at hr
  | some objs =>
    have hr' : uploadLoop (objs.map fun o => firstSegment o.key) wl bl f
        (sortPairs srcs) = r := by
      simpa [upload_artifacts] using hr
    rw [← hr'] at hp
    have h3 := uploadLoop_invoked_passes
      (objs.map fun o => firstSegment o.key) wl bl f p (sortPairs srcs) hp
    refine ⟨?_, ?_, ?_⟩
    · rintro l rfl hlne
      have hwl : ¬l = [] → p ∈ l := by
        simpa [whitelistSkip] using h3.2.1
      exact hwl hlne
    · rintro l rfl hlne hmem
      have hbl : ¬l = [] → p ∉ l := by
        simpa [blacklistSkip] using h3.2.2
      exact hbl hlne hmem
    · rintro objs2 hobjs e he heq
      obtain rfl : objs = objs2 := by simpa using hobjs
      exact h3.1 (List.mem_map.mpr ⟨e, he, heq⟩)

/-- Witness for C7: whitelist `{go}`, blacklist `{hp}`, local sources
`go`, `hp`, `zz` with `zz` already remote: only `go` is invoked, and the
theorem's three guarantees hold for it. -/
theorem C7_allow_deny_filters_witness :
    (∀ l, (some ["go"] : Option (List String)) = some l → l ≠ [] →
        "go" ∈ l) ∧
      (∀ l, (some ["hp"] : Option (List String)) = some l → l ≠ [] →
        "go" ∉ l) ∧
      ∀ objs, (ListResponse.mk (some [⟨"zz/x", 1⟩])).contents = some objs →
        ∀ e ∈ objs, firstSegment e.key ≠ "go" :=
  C7_allow_deny_filters ⟨some [⟨"zz/x", 1⟩]⟩ (some ["go"]) (some ["hp"])
    [("go", "d"), ("hp", "d"), ("zz", "d")] (fun _ => true)
    (UploadAllResult.mk ["go"] none) "go" rfl (by decide)

/-- C5: per-object idempotence of `download_artifacts`.  After a first
successful run, a second run over the same listing changes no local file
and issues no download call; every listed object's destination path
exists after the first run, exactly once (no duplicates, given a
duplicate-free start); and an object whose destination already existed
before the first run is never the subject of a download call. -/
theorem C5_download_idempotent (rawDir : String) (resp : ListResponse)
    (objs : List S3Object) (suffix : Option String) (init : List String)
    (st1 st2 : DownloadState) (hc : resp.contents = some objs)
    (h1 : download_artifacts rawDir resp suffix init = .ok st1)
    (h2 : download_artifacts rawDir resp suffix st1.files = .ok st2) :
    st2.files = st1.files ∧ st2.downloads = [] ∧
      (∀ e ∈ objs, osPathJoin rawDir e.key ∈ st1.files) ∧
      (∀ e ∈ objs, osPathJoin rawDir e.key ∈ init →
        ∀ pr ∈ st1.downloads, pr.1 ≠ e.key) ∧
      (init.Nodup → st1.files.Nodup) := by
  obtain ⟨contents⟩ := resp
  obtain rfl : contents = some objs := hc
  have h1' : objs.foldl (downloadEntry rawDir suffix) ⟨init, []⟩ = st1 := by
    simpa [download_artifacts] using h1
  have h2' : objs.foldl (downloadEntry rawDir suffix) ⟨st1.files, []⟩ = st2 := by
    simpa [download_artifacts] using h2
  have hcov : ∀ e ∈ objs, osPathJoin rawDir e.key ∈ st1.files := by
    intro e he
    rw [← h1']
    exact downloadFold_covers rawDir suffix objs ⟨init, []⟩ e he
  have hfix : objs.foldl (downloadEntry rawDir suffix) ⟨st1.files, []⟩ =
      ⟨st1.files, []⟩ :=
    downloadFold_fixpoint rawDir suffix objs ⟨st1.files, []⟩ hcov
  have hst2 : st2 = ⟨st1.files, []⟩ := by rw [← h2', hfix]
  refine ⟨by rw [hst2], by rw [hst2], hcov, ?_, ?_⟩
  · intro e he hinit pr hpr heq
    have hshape : pr ∈ (DownloadState.mk init []).downloads ∨
        pr.2 = osPathJoin rawDir pr.1 := by
      apply downloadFold_downloads_shape rawDir suffix objs ⟨init, []⟩
      rw [h1']
      exact hpr
    have hnew : pr ∈ (DownloadState.mk init []).downloads ∨
        pr.2 ∉ (DownloadState.mk init []).files := by
      apply downloadFold_downloads_new rawDir suffix objs ⟨init, []⟩
      rw [h1']
      exact hpr
    rcases hshape with h | hsh
    · simp at h
    rcases hnew with h | hnw
    · simp at h
    apply hnw
    rw [hsh, heq]
    exact hinit
  · intro hnd
    rw [← h1']
    exact downloadFold_nodup rawDir suffix objs ⟨init, []⟩ hnd

/-- Witness for C5: one remote object `go/x`, empty initial cache; the
first run downloads it once, the second run is a no-op. -/
theorem C5_download_idempotent_witness :
    (DownloadState.mk ["raw/go/x"] []).files =
        (DownloadState.mk ["raw/go/x"] [("go/x", "raw/go/x")]).files ∧
      (DownloadState.mk ["raw/go/x"] []).downloads = [] ∧
      (∀ e ∈ [S3Object.mk "go/x" 1], osPathJoin "raw" e.key ∈
        (DownloadState.mk ["raw/go/x"] [("go/x", "raw/go/x")]).files) ∧
      (∀ e ∈ [S3Object.mk "go/x" 1], osPathJoin "raw" e.key ∈
          ([] : List String) →
        ∀ pr ∈ (DownloadState.mk ["raw/go/x"]
            [("go/x", "raw/go/x")]).downloads, pr.1 ≠ e.key) ∧
      (([] : List String).Nodup →
        (DownloadState.mk ["raw/go/x"] [("go/x", "raw/go/x")]).files.Nodup) :=
  C5_download_idempotent "raw" ⟨some [⟨"go/x", 1⟩]⟩ [⟨"go/x", 1⟩] none []
    (DownloadState.mk ["raw/go/x"] [("go/x", "raw/go/x")])
    (DownloadState.mk ["raw/go/x"] []) rfl rfl rfl

/-- C4: one `upload_artifacts_for_prefix` run processes the six kinds in
the fixed order names, synonyms, xrefs, relations, properties, alts; if
the resolved file for kind `k` is absent after `k`'s derivation step
(and `k`'s block was reached), a `FileNotFoundError` is raised, the
derivation steps performed are exactly the order up to and including
`k`, and the uploads are exactly those for the kinds before `k` — no
later kind is derived or uploaded. -/
theorem C4_fixed_order_fail_fast (pfx bucket : String)
    (s3c : Option Client) (v : Option String) (gv : String → String)
    (gcp : String → CacheArtifact → String → String)
    (ea : CacheArtifact → Bool) (k : CacheArtifact) (hf : ea k = false)
    (hm : k ∈
      ( upload_artifacts_for_prefix pfx bucket s3c v gv gcp ea).derived) :
    ( upload_artifacts_for_prefix pfx bucket s3c v gv gcp ea).raised =
        true ∧
      ( upload_artifacts_for_prefix pfx bucket s3c v gv gcp ea).derived =
        artifactOrder.take (orderIdx k + 1) ∧
      ( upload_artifacts_for_prefix pfx bucket s3c v gv gcp ea).calls.map
          Prod.fst =
        artifactOrder.take (orderIdx k) := by
  cases k <;>
    cases h1 : ea CacheArtifact.names <;>
    cases h2 : ea CacheArtifact.synonyms <;>
    cases h3 : ea CacheArtifact.xrefs <;>
    cases h4 : ea CacheArtifact.relations <;>
    cases h5 : ea CacheArtifact.properties <;>
    simp_all [ upload_artifacts_for_prefix, uploadKinds, artifactOrder,
      orderIdx]

/-- Witness for C4: a run whose `xrefs` file is missing after derivation
raises, derives exactly names, synonyms, xrefs, and uploads exactly
names and synonyms. -/
theorem C4_fixed_order_fail_fast_witness :
    ( upload_artifacts_for_prefix "go" "b" none none (fun _ => "v0")
          (fun p k _ => "root/" ++ p ++ kindFileExt k)
          (fun k => match k with | .xrefs => false | _ => true)).raised =
        true ∧
      ( upload_artifacts_for_prefix "go" "b" none none (fun _ => "v0")
          (fun p k _ => "root/" ++ p ++ kindFileExt k)
          (fun k => match k with | .xrefs => false | _ => true)).derived =
        artifactOrder.take (orderIdx CacheArtifact.xrefs + 1) ∧
      ( upload_artifacts_for_prefix "go" "b" none none (fun _ => "v0")
          (fun p k _ => "root/" ++ p ++ kindFileExt k)
          (fun k => match k with | .xrefs => false | _ => true)).calls.map
          Prod.fst =
        artifactOrder.take (orderIdx CacheArtifact.xrefs) :=
  C4_fixed_order_fail_fast "go" "b" none none (fun _ => "v0")
    (fun p k _ => "root/" ++ p ++ kindFileExt k)
    (fun k => match k with | .xrefs => false | _ => true)
    CacheArtifact.xrefs rfl (by decide)

/-- C6: every upload call issued by `upload_artifacts_for_prefix` uses
the remote key `"{prefix}/cache/{filename}"` for the names, synonyms,
xrefs, relations and alts kinds, and `"{prefix}/{filename}"` — without
the `cache/` segment — for the properties kind (`filename` being the
final component of the resolved cache path), provided the prefix is
non-empty, does not end in a separator, and the filenames do not start
with one. -/
theorem C6_remote_key_scheme (pfx bucket : String) (s3c : Option Client)
    (v : Option String) (gv : String → String)
    (gcp : String → CacheArtifact → String → String)
    (ea : CacheArtifact → Bool) (k : CacheArtifact) (c : UploadCall)
    (hp1 : pfx ≠ "") (hp2 : pfx.data.getLast? ≠ some '/')
    (hn : ∀ k' : CacheArtifact,
      (pyName (gcp pfx k' (resolveVersion v gv pfx))).data.head? ≠ some '/')
    (hmem : (k, c) ∈
      ( upload_artifacts_for_prefix pfx bucket s3c v gv gcp ea).calls) :
    c.key = if k = CacheArtifact.properties
      then pfx ++ "/" ++ pyName (gcp pfx k (resolveVersion v gv pfx))
      else pfx ++ "/cache/" ++ pyName (gcp pfx k (resolveVersion v gv pfx)) := by
  have hc := uploadKinds_calls_shape pfx bucket (resolveClient s3c)
    (fun k' => gcp pfx k' (resolveVersion v gv pfx)) ea artifactOrder k c hmem
  subst hc
  cases k <;> simp only [upload_file, artifactKey] <;>
    first
      | simpa using osPathJoin_eq pfx _ hp1 hp2 (hn _)
      | simpa using osPathJoin3_cache pfx _ hp1 hp2 (hn _)

/-- Witness for C6: on a concrete run for prefix `go`, the names
artifact's call carries key `go/cache/go.names.tsv` while the properties
artifact's call carries key `go/go.properties.tsv`. -/
theorem C6_remote_key_scheme_witness :
    (UploadCall.mk "root/go.names.tsv" "b" "go/cache/go.names.tsv"
          (Client.external 7)).key = "go/cache/go.names.tsv" ∧
      (UploadCall.mk "root/go.properties.tsv" "b" "go/go.properties.tsv"
          (Client.external 7)).key = "go/go.properties.tsv" :=
  ⟨C6_remote_key_scheme "go" "b" (some (.external 7)) (some "v1")
      (fun _ => "v0") (fun p k _ => "root/" ++ p ++ kindFileExt k)
      (fun _ => true) CacheArtifact.names
      (UploadCall.mk "root/go.names.tsv" "b" "go/cache/go.names.tsv"
        (Client.external 7)) (by decide) (by decide) (by decide) (by decide),
    C6_remote_key_scheme "go" "b" (some (.external 7)) (some "v1")
      (fun _ => "v0") (fun p k _ => "root/" ++ p ++ kindFileExt k)
      (fun _ => true) CacheArtifact.properties
      (UploadCall.mk "root/go.properties.tsv" "b" "go/go.properties.tsv"
        (Client.external 7)) (by decide) (by decide) (by decide) (by decide)⟩

/-- C8: when an explicit client handle is passed to
`upload_artifacts_for_prefix`, the names, synonyms, xrefs, relations and
properties uploads all use that handle, but the alts upload does not
receive it — its `upload_file` call constructs a fresh default
client. -/
theorem C8_alts_upload_uses_fresh_client (pfx bucket : String) (c : Client)
    (v : Option String) (gv : String → String)
    (gcp : String → CacheArtifact → String → String)
    (ea : CacheArtifact → Bool) (hAll : ∀ k, ea k = true) :
    ( upload_artifacts_for_prefix pfx bucket (some c) v gv gcp ea).calls.map
        (fun pr => (pr.1, pr.2.client)) =
      [(.names, c), (.synonyms, c), (.xrefs, c), (.relations, c),
        (.properties, c), (.alts, Client.freshDefault)] := by
  simp [ upload_artifacts_for_prefix, uploadKinds, artifactOrder, hAll,
    upload_file, artifactClient, resolveClient]

/-- Witness for C8: a concrete run with an injected external client
shows the first five uploads on that client and the alts upload on a
fresh default one. -/
theorem C8_alts_upload_uses_fresh_client_witness :
    ( upload_artifacts_for_prefix "go" "b" (some (.external 7)) (some "v1")
          (fun _ => "v0") (fun p k _ => "root/" ++ p ++ kindFileExt k)
          (fun _ => true)).calls.map (fun pr => (pr.1, pr.2.client)) =
      [(.names, .external 7), (.synonyms, .external 7), (.xrefs, .external 7),
        (.relations, .external 7), (.properties, .external 7),
        (.alts, Client.freshDefault)] :=
  C8_alts_upload_uses_fresh_client "go" "b" (.external 7) (some "v1")
    (fun _ => "v0") (fun p k _ => "root/" ++ p ++ kindFileExt k)
    (fun _ => true) (fun _ => rfl)

end PyObo
